import Mathlib

/-!
# A shallow embedding of Servo's Constellation (src/components/main/constellation.rs)

The Constellation is the coordinator task of the browsing engine: it owns the
pipeline registry, the frame trees, the navigation (history) context and the
queue of pending frame changes, and it reacts to one message at a time.

This file embeds the data model and the `handle_request` state machine of
`constellation.rs` as pure Lean functions:

* mutable `@mut Pipeline` handles become entries of a store keyed by
  `PipelineId` (a `Nat`); frame trees refer to pipelines by id;
* `@mut FrameTree` sharing is modelled by value trees updated by pipeline id
  (the source guarantees a pipeline appears at most once per frame tree, so
  the in-place mutation through `find_mut`/`find_all` aliases coincides with
  the id-directed functional update used here);
* message sends to external actors (script workers, compositor, pipelines)
  become an ordered `Event` trace returned next to the new state;
* `fail!`/`expect` become `Except.error`;
* `~[T]` vectors become `List`; `push` appends at the end, `pop` removes the
  last element, `swap_remove` and `rposition` are transcribed below.

`Pipeline`'s own methods live in `pipeline.rs`, which is not among the source
files; the store updates performed by `load`/`reload` are modelled from the
spec and marked as such.
-/

/-- Rust: url's relevant fields. `host` and `port` are compared for the
same-origin check; `path` is tested for the `.js` suffix. The path is kept as
a list of characters so that the suffix test is an executable function. -/
structure Url where
  host : String
  port : Option String
  path : List Char
deriving DecidableEq, Repr, Inhabited

/-- Rust: `url.path.ends_with(".js")`. -/
def endsWithDotJs (p : List Char) : Bool :=
  match p.reverse with
  | 's' :: 'j' :: '.' :: _ => true
  | _ => false

/-- Rust: `constellation_msg::NavigationType` (`Load` or `Navigate`). -/
inductive NavigationType where
  | load
  | navigate
deriving DecidableEq, Repr

/-- Observable state of one `Pipeline` object (shared via `@mut` handles in
the source; held here in a store keyed by pipeline id). -/
structure PData where
  subpageId : Option Nat
  url : Option Url
  navType : Option NavigationType
deriving DecidableEq, Repr, Inhabited

/-- Rust: `struct FrameTree { pipeline, parent, children }`. The `pipeline`
and `parent` fields hold `@mut Pipeline` handles in the source; only their
ids are ever consulted, so they are embedded as ids. -/
inductive FrameTree : Type where
  | node (pid : Nat) (parent : Option Nat) (children : List FrameTree)
deriving Repr, Inhabited

mutual
def FrameTree.decEq : (a b : FrameTree) → Decidable (a = b)
  | .node p1 q1 c1, .node p2 q2 c2 =>
    have d3 : Decidable (c1 = c2) := FrameTree.decEqList c1 c2
    decidable_of_iff (p1 = p2 ∧ q1 = q2 ∧ c1 = c2) (by simp)
def FrameTree.decEqList : (a b : List FrameTree) → Decidable (a = b)
  | [], [] => isTrue rfl
  | [], _ :: _ => isFalse (by simp)
  | _ :: _, [] => isFalse (by simp)
  | x :: xs, y :: ys =>
    have d1 : Decidable (x = y) := FrameTree.decEq x y
    have d2 : Decidable (xs = ys) := FrameTree.decEqList xs ys
    decidable_of_iff (x = y ∧ xs = ys) (by simp)
end

instance : DecidableEq FrameTree := FrameTree.decEq

def FrameTree.pid : FrameTree → Nat
  | .node p _ _ => p

def FrameTree.parentId : FrameTree → Option Nat
  | .node _ par _ => par

def FrameTree.children : FrameTree → List FrameTree
  | .node _ _ ch => ch

/- Number of nodes of a frame tree (termination measure for the iterator). -/
mutual
def FrameTree.size : FrameTree → Nat
  | .node _ _ ch => 1 + FrameTree.sizeList ch
def FrameTree.sizeList : List FrameTree → Nat
  | [] => 0
  | t :: ts => t.size + FrameTree.sizeList ts
end

/- Rust: `FrameTree::contains` — the node's own pipeline id matches, or some
child's subtree contains the id. -/
mutual
def FrameTree.containsB : FrameTree → Nat → Bool
  | .node p _ ch, i => p == i || FrameTree.listContainsB ch i
def FrameTree.listContainsB : List FrameTree → Nat → Bool
  | [], _ => false
  | t :: ts, i => t.containsB i || FrameTree.listContainsB ts i
end

/- Rust: `FrameTree::find_mut` — the node itself if its id matches, else the
first matching subtree among the children, in child order. -/
mutual
def FrameTree.find? : FrameTree → Nat → Option FrameTree
  | .node p par ch, i =>
    if p == i then some (.node p par ch) else FrameTree.findList? ch i
def FrameTree.findList? : List FrameTree → Nat → Option FrameTree
  | [], _ => none
  | t :: ts, i =>
    match t.find? i with
    | some r => some r
    | none => FrameTree.findList? ts i
end

/-- Rust: `new_child.parent = child.parent` before swapping a child in. -/
def FrameTree.setParent : FrameTree → Option Nat → FrameTree
  | .node p _ ch, par => .node p par ch

/- Rust: `FrameTree::replace_child` — walk the children; on the first child
whose pipeline id matches, inherit its `parent` into the new child, swap it
in and return `Left(displaced)`; otherwise recurse; if nothing matched,
leave the tree unchanged and return `Right(new_child)`. `Sum.inl` stands for
`Left`, `Sum.inr` for `Right`. -/
mutual
def FrameTree.replaceChild : FrameTree → Nat → FrameTree → FrameTree × (FrameTree ⊕ FrameTree)
  | .node p par ch, i, nc =>
    match FrameTree.replaceChildList ch i nc with
    | (ch', r) => (.node p par ch', r)
def FrameTree.replaceChildList : List FrameTree → Nat → FrameTree → List FrameTree × (FrameTree ⊕ FrameTree)
  | [], _, nc => ([], Sum.inr nc)
  | c :: cs, i, nc =>
    if c.pid == i then
      (FrameTree.setParent nc c.parentId :: cs, Sum.inl c)
    else
      match c.replaceChild i nc with
      | (c', Sum.inl displaced) => (c' :: cs, Sum.inl displaced)
      | (_, Sum.inr nc') =>
        match FrameTree.replaceChildList cs i nc' with
        | (cs', r) => (c :: cs', r)
end

/- Push `c` onto the children of the first node (in `find_mut` order) whose
pipeline id is `i`; `none` if no node matches. This is the value-level
rendering of `find_mut(i)` followed by `children.push(c)` on the alias. -/
mutual
def FrameTree.addChild? : FrameTree → Nat → FrameTree → Option FrameTree
  | .node p par ch, i, c =>
    if p == i then some (.node p par (ch ++ [c]))
    else
      match FrameTree.addChildList? ch i c with
      | some ch' => some (.node p par ch')
      | none => none
def FrameTree.addChildList? : List FrameTree → Nat → FrameTree → Option (List FrameTree)
  | [], _, _ => none
  | t :: ts, i, c =>
    match t.addChild? i c with
    | some t' => some (t' :: ts)
    | none =>
      match FrameTree.addChildList? ts i c with
      | some ts' => some (t :: ts')
      | none => none
end

/-- Rust: `FrameTreeIterator::next` — pop the last stack entry, push all of
its children (in order) onto the stack, yield the popped node. The Lean list
holds the stack top first, so `push_all(children)` prepends the reversed
children. The fuel argument makes the loop structurally recursive; one unit
of fuel is spent per yielded node, so fuel `FrameTree.sizeList stack` is
exact. -/
def iterFuel : Nat → List FrameTree → List FrameTree
  | 0, _ => []
  | _ + 1, [] => []
  | n + 1, t :: rest => t :: iterFuel n (t.children.reverse ++ rest)

/-- Rust: `FrameTree::iter()` — the sequence of nodes yielded by
`FrameTreeIterator` starting from the singleton stack. -/
def FrameTree.iterList (t : FrameTree) : List FrameTree := iterFuel t.size [t]

/- Depth-first pre-order with each node's children visited in reverse child
order; closed form of the stack iterator. -/
mutual
def FrameTree.preorderRev : FrameTree → List FrameTree
  | .node p par ch => .node p par ch :: FrameTree.preorderRevList ch
def FrameTree.preorderRevList : List FrameTree → List FrameTree
  | [] => []
  | t :: ts => FrameTree.preorderRevList ts ++ t.preorderRev
end

/- Modelled from the spec: depth-first pre-order with each node's children
visited in document order (the traversal the spec ascribes to `iter()`);
used to compare the implemented iterator against the spec's description. -/
mutual
def FrameTree.preorderDoc : FrameTree → List FrameTree
  | .node p par ch => .node p par ch :: FrameTree.preorderDocList ch
def FrameTree.preorderDocList : List FrameTree → List FrameTree
  | [] => []
  | t :: ts => t.preorderDoc ++ FrameTree.preorderDocList ts
end

/-- Messages the constellation sends to its collaborators (script workers,
pipelines, the compositor, the image cache and resource tasks), recorded in
the order they are emitted. -/
inductive Event where
  | execute (pid : Nat) (url : Url)
  | load (pid : Nat) (url : Url) (nt : Option NavigationType)
  | reload (pid : Nat) (nt : Option NavigationType)
  | grantPaint (pid : Nat)
  | revokePaint (pid : Nat)
  | exit (pid : Nat)
  | resizeInactive (pid : Nat) (newSize : Nat)
  | setIds (t : FrameTree)
  | imageCacheExit
  | resourceExit
deriving DecidableEq, Repr, Inhabited

/-- Rust: `struct FrameChange { before, after }`. -/
structure FrameChange where
  before : Option Nat
  after : FrameTree
deriving DecidableEq, Repr, Inhabited

/-- Rust: `struct NavigationContext { previous, next, current }`. -/
structure NavigationContext where
  previous : List FrameTree
  next : List FrameTree
  current : Option FrameTree
deriving DecidableEq, Repr, Inhabited

/-- Rust: `vec.pop()` — remove and return the last element. -/
def popLast {α : Type} : List α → Option (List α × α)
  | [] => none
  | [a] => some ([], a)
  | a :: b :: rest => (popLast (b :: rest)).map (fun r => (a :: r.1, r.2))

/-- Rust: `NavigationContext::back` — push `current` onto `next`, pop
`previous` into `current`, return the new current tree. Fails (`none`) when
`current` is empty or `previous` is empty. -/
def navBack (nc : NavigationContext) : Option (FrameTree × NavigationContext) :=
  match nc.current, popLast nc.previous with
  | some c, some (ps, p) =>
    some (p, { previous := ps, next := nc.next ++ [c], current := some p })
  | _, _ => none

/-- Rust: `NavigationContext::forward` — push `current` onto `previous`, pop
`next` into `current`, return the new current tree. -/
def navForward (nc : NavigationContext) : Option (FrameTree × NavigationContext) :=
  match nc.current, popLast nc.next with
  | some c, some (ns, x) =>
    some (x, { previous := nc.previous ++ [c], next := ns, current := some x })
  | _, _ => none

/-- Rust: `NavigationContext::load` — take `next` as the evicted trees,
clear it, push the old `current` (if any) onto `previous`, install the new
tree as `current`. Returns the new context and the evicted trees. -/
def navLoad (nc : NavigationContext) (t : FrameTree) : NavigationContext × List FrameTree :=
  ({ previous := nc.previous ++ nc.current.toList, next := [], current := some t }, nc.next)

/-- Rust: `NavigationContext::contains` — some tree of `previous`, `current`
or `next` contains the pipeline id. -/
def navContains (nc : NavigationContext) (i : Nat) : Bool :=
  nc.previous.any (fun t => t.containsB i) ||
  (match nc.current with
   | some t => t.containsB i
   | none => false) ||
  nc.next.any (fun t => t.containsB i)

/-- Emptiness of Rust's `NavigationContext::find_all` — whether `find_mut`
succeeds on some tree of `previous`, `current` or `next`. -/
def navFindAny (nc : NavigationContext) (i : Nat) : Bool :=
  nc.previous.any (fun t => (t.find? i).isSome) ||
  (match nc.current with
   | some t => (t.find? i).isSome
   | none => false) ||
  nc.next.any (fun t => (t.find? i).isSome)

/-- Push `c` as a child of the node with id `i` in every tree of the
navigation context that has one (Rust: the `find_all` aliases each receive a
`children.push`). -/
def navAddChild (nc : NavigationContext) (i : Nat) (c : FrameTree) : NavigationContext :=
  { previous := nc.previous.map (fun t => (t.addChild? i c).getD t)
    current := nc.current.map (fun t => (t.addChild? i c).getD t)
    next := nc.next.map (fun t => (t.addChild? i c).getD t) }

/-- Look up a pipeline's state in the store. -/
def lookupStore (s : List (Nat × PData)) (i : Nat) : Option PData :=
  (s.find? (fun kv => kv.1 == i)).map (fun kv => kv.2)

/-- Insert (or overwrite) a pipeline's state in the store. -/
def insertStore (s : List (Nat × PData)) (i : Nat) (pd : PData) : List (Nat × PData) :=
  if s.any (fun kv => kv.1 == i) then
    s.map (fun kv => if kv.1 == i then (i, pd) else kv)
  else s ++ [(i, pd)]

/-- Modelled from the spec: `Pipeline::load(url, navigation_type)`
(`pipeline.rs` is not among the source files) issues the load to the
pipeline's workers and records the url and the navigation type on the
pipeline (spec section 3: `url` is set once a load is issued;
`navigation_type` is set when a load is issued). -/
def storeLoad (s : List (Nat × PData)) (i : Nat) (u : Url) (nt : Option NavigationType) : List (Nat × PData) :=
  s.map (fun kv => if kv.1 == i then (kv.1, { kv.2 with url := some u, navType := nt }) else kv)

/-- Modelled from the spec: `Pipeline::reload(navigation_type)` re-issues
the pipeline's current url with the given navigation type, updating the
recorded navigation type (spec section 4.6). -/
def storeReload (s : List (Nat × PData)) (i : Nat) (nt : Option NavigationType) : List (Nat × PData) :=
  s.map (fun kv => if kv.1 == i then (kv.1, { kv.2 with navType := nt }) else kv)

/-- Rust: `HashMap::insert` on the pipeline registry, restricted to its key
set (an existing key keeps the set unchanged). -/
def registryInsert (l : List Nat) (i : Nat) : List Nat :=
  if l.contains i then l else l ++ [i]

/-- Rust: `Iterator::rposition` — index of the last element satisfying the
predicate. -/
def rposition {α : Type} (p : α → Bool) : List α → Option Nat
  | [] => none
  | a :: as =>
    match rposition p as with
    | some i => some (i + 1)
    | none => if p a then some 0 else none

/-- Rust: `vec.swap_remove(i)` — move the last element into position `i`
and shrink the vector by one. -/
def swapRemove {α : Type} (l : List α) (i : Nat) : List α :=
  match l.getLast? with
  | none => []
  | some x => (l.set i x).dropLast

/-- The constellation's mutable state: the pipeline registry (the key set of
`pipelines: HashMap<PipelineId, @mut Pipeline>`), the store holding the
state of every pipeline object ever created (handles outlive registry
removal), the navigation context, the next fresh pipeline id and the
pending frame changes. -/
structure ConstState where
  pipelines : List Nat
  store : List (Nat × PData)
  nav : NavigationContext
  nextPipelineId : Nat
  pendingFrames : List FrameChange
deriving DecidableEq, Repr, Inhabited

/-- Rust: `Constellation::set_ids` — send `SetIds` with a snapshot of the
tree to the compositor, await the acknowledgment, then grant paint
permission to every frame of the tree (in iterator order). -/
def setIdsEvents (t : FrameTree) : List Event :=
  Event.setIds t :: t.iterList.map (fun f => Event.grantPaint f.pid)

/-- Rust: `Constellation::grant_paint_permission` — `set_ids`, then, iff the
tree's root pipeline has `navigation_type == Some(Load)`, commit the
navigation: `navigation_context.load(tree)`, and for every frame of every
evicted tree whose pipeline is not contained in the (updated) navigation
context, call `exit()` on the evicted tree's pipeline (`frame_tree.pipeline`
in the source, i.e. the evicted root, not `frame.pipeline`) and remove that
root id from the registry. -/
def grantPaintPermission (st : ConstState) (tree : FrameTree) : ConstState × List Event :=
  let sids := setIdsEvents tree
  match (lookupStore st.store tree.pid).bind (fun pd => pd.navType) with
  | some NavigationType.load =>
    let loaded := navLoad st.nav tree
    let nav' := loaded.1
    let evicted := loaded.2
    let res := evicted.foldl
      (fun acc ft =>
        ft.iterList.foldl
          (fun (acc2 : List Nat × List Event) frame =>
            if navContains nav' frame.pid then acc2
            else (acc2.1.erase ft.pid, acc2.2 ++ [Event.exit ft.pid]))
          acc)
      (st.pipelines, ([] : List Event))
    ({ st with nav := nav', pipelines := res.1 }, sids ++ res.2)
  | _ => (st, sids)

/-- Rust: `ExitMsg` — exit every registered pipeline, shut down the image
cache and the resource task, acknowledge, stop the loop. -/
def handleExit (st : ConstState) : Except String (ConstState × List Event) :=
  Except.ok (st, st.pipelines.map Event.exit ++ [Event.imageCacheExit, Event.resourceExit])

/-- Rust: `InitLoadUrlMsg` — create a fresh root pipeline; a `.js` url is
sent to the script worker with `ExecuteMsg`, any other url is loaded with
`Some(Load)` and a pending frame change `{before: None}` is enqueued; the
pipeline is registered either way. -/
def handleInitLoadUrl (st : ConstState) (url : Url) : Except String (ConstState × List Event) :=
  let newId := st.nextPipelineId
  let store1 := insertStore st.store newId { subpageId := none, url := none, navType := none }
  if endsWithDotJs url.path then
    Except.ok ({ st with
                 nextPipelineId := newId + 1
                 store := store1
                 pipelines := registryInsert st.pipelines newId },
               [Event.execute newId url])
  else
    Except.ok ({ st with
                 nextPipelineId := newId + 1
                 store := storeLoad store1 newId url (some NavigationType.load)
                 pipelines := registryInsert st.pipelines newId
                 pendingFrames := st.pendingFrames ++
                   [{ before := none, after := FrameTree.node newId none [] }] },
               [Event.load newId url (some NavigationType.load)])

/-- Rust: `LoadIframeUrlMsg` — find every tree of the navigation context and
of the pending changes containing the source pipeline (fail hard if none);
look the source pipeline up in the registry and take its url (fail hard on
either miss); the same-origin comparison picks `Pipeline::with_script`
versus `Pipeline::create`, which differ only in script-worker sharing and
are indistinguishable in this embedding; a `.js` url is executed, any other
is loaded with navigation type `None`; the new pipeline is pushed as a
child of every matching tree and registered. -/
def handleLoadIframeUrl (st : ConstState) (url : Url) (sourceId subpageId : Nat) :
    Except String (ConstState × List Event) :=
  let found := navFindAny st.nav sourceId ||
    st.pendingFrames.any (fun fc => (fc.after.find? sourceId).isSome)
  if !found then
    Except.error "LoadIframeUrl: source pipeline in no navigation or pending frame tree"
  else
    let newId := st.nextPipelineId
    if !(st.pipelines.contains sourceId) then
      Except.error "LoadIframeUrl: source pipeline not in registry"
    else
      match lookupStore st.store sourceId with
      | none => Except.error "LoadIframeUrl: source pipeline not in store"
      | some spd =>
        match spd.url with
        | none => Except.error "LoadIframeUrl: source url is None"
        | some srcUrl =>
          let sameOrigin := srcUrl.host == url.host && srcUrl.port == url.port
          let _ := sameOrigin
          let store1 := insertStore st.store newId
            { subpageId := some subpageId, url := none, navType := none }
          let step :=
            if endsWithDotJs url.path then (store1, [Event.execute newId url])
            else (storeLoad store1 newId url none, [Event.load newId url none])
          let child := FrameTree.node newId (some sourceId) []
          Except.ok ({ st with
                       nextPipelineId := newId + 1
                       store := step.1
                       nav := navAddChild st.nav sourceId child
                       pendingFrames := st.pendingFrames.map
                         (fun fc => { fc with after := (fc.after.addChild? sourceId child).getD fc.after })
                       pipelines := registryInsert st.pipelines newId },
                     step.2)

/-- Rust: the pending-change loop of `LoadUrlMsg` — for each pending change,
`before` must be `Some(old_id)` (fail hard otherwise) and `old_id` must be
in the current tree (fail hard otherwise); if the changing subtree contains
the source or the source subtree contains `old_id`, report `true` (the load
is to be dropped). -/
def checkPending (cur sourceFrame : FrameTree) (sourceId : Nat) :
    List FrameChange → Except String Bool
  | [] => Except.ok false
  | fc :: rest =>
    match fc.before with
    | none => Except.error "LoadUrl: pending change with no active source"
    | some oldId =>
      match cur.find? oldId with
      | none => Except.error "LoadUrl: pending change has non-active source pipeline"
      | some changingFrame =>
        if changingFrame.containsB sourceId || sourceFrame.containsB oldId then Except.ok true
        else checkPending cur sourceFrame sourceId rest

/-- Rust: `LoadUrlMsg` — the source must be in the current frame tree (fail
hard otherwise); if a pending change covers or is covered by the source's
subtree the message is dropped with no state change; otherwise create a
pipeline inheriting the source frame's parent and subpage id, execute it
(`.js`) or load it with `Some(Load)` and enqueue the frame change, and
register it. -/
def handleLoadUrl (st : ConstState) (sourceId : Nat) (url : Url) :
    Except String (ConstState × List Event) :=
  match st.nav.current with
  | none => Except.error "LoadUrl: no current frame tree"
  | some cur =>
    match cur.find? sourceId with
    | none => Except.error "LoadUrl: source pipeline not in active frame tree"
    | some sourceFrame =>
      match checkPending cur sourceFrame sourceId st.pendingFrames with
      | Except.error e => Except.error e
      | Except.ok true => Except.ok (st, [])
      | Except.ok false =>
        match lookupStore st.store sourceFrame.pid with
        | none => Except.error "LoadUrl: source pipeline not in store"
        | some spd =>
          let parent := sourceFrame.parentId
          let subpage := spd.subpageId
          let newId := st.nextPipelineId
          let store1 := insertStore st.store newId
            { subpageId := subpage, url := none, navType := none }
          if endsWithDotJs url.path then
            Except.ok ({ st with
                         nextPipelineId := newId + 1
                         store := store1
                         pipelines := registryInsert st.pipelines newId },
                       [Event.execute newId url])
          else
            Except.ok ({ st with
                         nextPipelineId := newId + 1
                         store := storeLoad store1 newId url (some NavigationType.load)
                         pipelines := registryInsert st.pipelines newId
                         pendingFrames := st.pendingFrames ++
                           [{ before := some sourceId, after := FrameTree.node newId parent [] }] },
                       [Event.load newId url (some NavigationType.load)])

/-- Rust: `Forward`/`Back` of `NavigateMsg`. -/
inductive Direction where
  | forward
  | back
deriving DecidableEq, Repr, Inhabited

/-- Rust: `NavigateMsg(direction)` — an empty destination stack is a no-op;
otherwise revoke paint permission on every frame of the current tree, move
through the navigation context, `reload(Some(Navigate))` every pipeline of
the destination tree and grant it paint permission. -/
def handleNavigate (st : ConstState) (dir : Direction) : Except String (ConstState × List Event) :=
  match dir with
  | Direction.forward =>
    if st.nav.next.isEmpty then Except.ok (st, [])
    else
      match st.nav.current with
      | none => Except.error "Navigate: no current frame tree"
      | some old =>
        let revokes := old.iterList.map (fun f => Event.revokePaint f.pid)
        match navForward st.nav with
        | none => Except.error "Navigate: forward on empty stack"
        | some (dest, nav1) =>
          let reloads := dest.iterList.map (fun f => Event.reload f.pid (some NavigationType.navigate))
          let store1 := dest.iterList.foldl
            (fun s f => storeReload s f.pid (some NavigationType.navigate)) st.store
          let granted := grantPaintPermission { st with nav := nav1, store := store1 } dest
          Except.ok (granted.1, revokes ++ reloads ++ granted.2)
  | Direction.back =>
    if st.nav.previous.isEmpty then Except.ok (st, [])
    else
      match st.nav.current with
      | none => Except.error "Navigate: no current frame tree"
      | some old =>
        let revokes := old.iterList.map (fun f => Event.revokePaint f.pid)
        match navBack st.nav with
        | none => Except.error "Navigate: back on empty stack"
        | some (dest, nav1) =>
          let reloads := dest.iterList.map (fun f => Event.reload f.pid (some NavigationType.navigate))
          let store1 := dest.iterList.foldl
            (fun s f => storeReload s f.pid (some NavigationType.navigate)) st.store
          let granted := grantPaintPermission { st with nav := nav1, store := store1 } dest
          Except.ok (granted.1, revokes ++ reloads ++ granted.2)

/-- Whether a pending frame change's new pipeline id is `pid` (the
`rposition` predicate of `RendererReadyMsg`). -/
def matchesPid (pid : Nat) (fc : FrameChange) : Bool := fc.after.pid == pid

/-- Rust: the body of `RendererReadyMsg` once a pending change has been
removed from the queue — build the next frame tree (the pending tree itself
when it is a new root, else a structure clone of the current tree), revoke
the replaced subtree and `replace_child` it (sub-frame navigation), or
append the pending tree to its parent's children (iframe load), then grant
paint permission. -/
def processFrameChange (st : ConstState) (fc : FrameChange) : Except String (ConstState × List Event) :=
  match fc.after.parentId with
  | none =>
    match fc.before with
    | some revokeId =>
      match st.nav.current with
      | none => Except.error "RendererReady: no current frame tree"
      | some cur =>
        match cur.find? revokeId with
        | none => Except.error "RendererReady: old frame not in current frame tree"
        | some toRevoke =>
          Except.ok ((grantPaintPermission st fc.after).1,
            toRevoke.iterList.map (fun f => Event.revokePaint f.pid) ++
              (grantPaintPermission st fc.after).2)
    | none =>
      Except.ok ((grantPaintPermission st fc.after).1, (grantPaintPermission st fc.after).2)
  | some ppid =>
    match st.nav.current with
    | none => Except.error "RendererReady: no current frame tree to clone"
    | some cur =>
      match fc.before with
      | some revokeId =>
        match cur.find? revokeId with
        | none => Except.error "RendererReady: old frame not in current frame tree"
        | some toRevoke =>
          Except.ok ((grantPaintPermission st (cur.replaceChild revokeId fc.after).1).1,
            toRevoke.iterList.map (fun f => Event.revokePaint f.pid) ++
              (grantPaintPermission st (cur.replaceChild revokeId fc.after).1).2)
      | none =>
        match cur.addChild? ppid fc.after with
        | none => Except.error "RendererReady: pending frame parent not active"
        | some nextTree =>
          Except.ok ((grantPaintPermission st nextTree).1, (grantPaintPermission st nextTree).2)

/-- Rust: the pending-frame half of `RendererReadyMsg` — `rposition` over
the pending queue; no match is a no-op, otherwise `swap_remove` the match
and process it. -/
def handlePendingReady (st : ConstState) (pid : Nat) : Except String (ConstState × List Event) :=
  match rposition (matchesPid pid) st.pendingFrames with
  | none => Except.ok (st, [])
  | some idx =>
    processFrameChange { st with pendingFrames := swapRemove st.pendingFrames idx }
      (st.pendingFrames.getD idx default)

/-- Rust: `RendererReadyMsg(pipeline_id)` — if the current tree contains the
pipeline, only `set_ids` runs; otherwise the pending queue is consulted. -/
def handleRendererReady (st : ConstState) (pid : Nat) : Except String (ConstState × List Event) :=
  match st.nav.current with
  | some cur =>
    if cur.containsB pid then Except.ok (st, setIdsEvents cur)
    else handlePendingReady st pid
  | none => handlePendingReady st pid

/-- Rust: `ResizedWindowBroadcast(new_size)` — send `ResizeInactiveMsg` to
the root pipeline of every tree of `previous` and of `next` whose root id
differs from the current tree's root id (to all of them when there is no
current tree). -/
def handleResized (st : ConstState) (sz : Nat) : Except String (ConstState × List Event) :=
  match st.nav.current with
  | some cur =>
    let cid := cur.pid
    Except.ok (st,
      (st.nav.previous.filter (fun t => t.pid != cid)).map (fun t => Event.resizeInactive t.pid sz) ++
      (st.nav.next.filter (fun t => t.pid != cid)).map (fun t => Event.resizeInactive t.pid sz))
  | none =>
    Except.ok (st,
      st.nav.previous.map (fun t => Event.resizeInactive t.pid sz) ++
      st.nav.next.map (fun t => Event.resizeInactive t.pid sz))

/-- Rust: the inbox message type of the constellation. -/
inductive Msg where
  | exitMsg
  | initLoadUrl (url : Url)
  | loadIframeUrl (url : Url) (sourceId : Nat) (subpageId : Nat)
  | loadUrl (sourceId : Nat) (url : Url)
  | navigateMsg (dir : Direction)
  | rendererReady (pid : Nat)
  | resizedWindowBroadcast (newSize : Nat)
deriving DecidableEq, Repr, Inhabited

/-- Rust: `Constellation::handle_request` — dispatch one message; the `Bool`
is the continue/stop signal (`false` only for `ExitMsg`). -/
def handleRequest (st : ConstState) (msg : Msg) : Except String (ConstState × List Event × Bool) :=
  match msg with
  | Msg.exitMsg => (handleExit st).map (fun r => (r.1, r.2, false))
  | Msg.initLoadUrl url => (handleInitLoadUrl st url).map (fun r => (r.1, r.2, true))
  | Msg.loadIframeUrl url sid sub => (handleLoadIframeUrl st url sid sub).map (fun r => (r.1, r.2, true))
  | Msg.loadUrl sid url => (handleLoadUrl st sid url).map (fun r => (r.1, r.2, true))
  | Msg.navigateMsg d => (handleNavigate st d).map (fun r => (r.1, r.2, true))
  | Msg.rendererReady pid => (handleRendererReady st pid).map (fun r => (r.1, r.2, true))
  | Msg.resizedWindowBroadcast sz => (handleResized st sz).map (fun r => (r.1, r.2, true))

/-- Run a sequence of messages from a state, threading the state through. -/
def runMsgs : ConstState → List Msg → Except String ConstState
  | st, [] => Except.ok st
  | st, m :: ms =>
    match handleRequest st m with
    | Except.ok r => runMsgs r.1 ms
    | Except.error e => Except.error e

/-- Rust: the state the constellation task starts with. -/
def initialState : ConstState :=
  { pipelines := [], store := [], nav := { previous := [], next := [], current := none },
    nextPipelineId := 0, pendingFrames := [] }

/-- A url on host `a` with the given path. -/
def urlA (p : List Char) : Url := { host := "a", port := none, path := p }

/-- A `.js` url on host `a`. -/
def jsUrl : Url := urlA ['/', 's', '.', 'j', 's']

/-- Every pipeline id reachable from the navigation context or from the
pending-change queue (the reachability notion of the registry invariant). -/
def reachablePids (st : ConstState) : List Nat :=
  ((st.nav.previous ++ st.nav.current.toList ++ st.nav.next).map
    (fun t => t.preorderDoc.map FrameTree.pid)).flatten ++
  (st.pendingFrames.map (fun fc => fc.after.preorderDoc.map FrameTree.pid)).flatten

/-- A constellation state about to commit a Load of pipeline 3: the current
tree holds pipelines 0 and 1, the forward stack holds one tree with root 0
and child 2 (pipeline 2 occurs nowhere else). -/
def c1State : ConstState :=
  { pipelines := [0, 1, 2, 3]
    store := [(0, { subpageId := none, url := some (urlA ['/']), navType := some NavigationType.load }),
              (1, { subpageId := some 7, url := some (urlA ['/', 'c']), navType := none }),
              (2, { subpageId := some 7, url := some (urlA ['/', 'p']), navType := some NavigationType.load }),
              (3, { subpageId := none, url := some (urlA ['/', 'q']), navType := some NavigationType.load })]
    nav := { previous := []
             current := some (FrameTree.node 0 none [FrameTree.node 1 (some 0) []])
             next := [FrameTree.node 0 none [FrameTree.node 2 (some 0) []]] }
    nextPipelineId := 4
    pendingFrames := [] }

/-- The tree whose Load `c1State` is about to commit. -/
def c1Tree : FrameTree := FrameTree.node 3 none []

/-- A state whose previous stack holds a two-node tree (root 0, child 1)
while the current tree is the single node 2. -/
def c2State : ConstState :=
  { pipelines := [0, 1, 2]
    store := [(0, default), (1, default), (2, default)]
    nav := { previous := [FrameTree.node 0 none [FrameTree.node 1 (some 0) []]]
             current := some (FrameTree.node 2 none [])
             next := [] }
    nextPipelineId := 3
    pendingFrames := [] }

/-- Bootstrap, iframe load, sub-frame navigation, commit, back, new load,
commit: after the final Load commit the evicted forward tree holds pipelines
0 and 2, pipeline 0 is still in the previous stack and pipeline 2 is
nowhere else. -/
def c3Msgs : List Msg :=
  [ Msg.initLoadUrl (urlA ['/']),
    Msg.rendererReady 0,
    Msg.loadIframeUrl (urlA ['/', 'c']) 0 7,
    Msg.loadUrl 1 (urlA ['/', 'p', '2']),
    Msg.rendererReady 2,
    Msg.navigateMsg Direction.back,
    Msg.loadUrl 0 (urlA ['/', 'p', '3']),
    Msg.rendererReady 3 ]

/-- A state with one pending change replacing the current root, so that any
further LoadUrl from pipeline 0 is superseded. -/
def c4State : ConstState :=
  { pipelines := [0, 1]
    store := [(0, { subpageId := none, url := some (urlA ['/']), navType := some NavigationType.load }),
              (1, { subpageId := none, url := some (urlA ['/', 'p']), navType := some NavigationType.load })]
    nav := { previous := [], next := [], current := some (FrameTree.node 0 none []) }
    nextPipelineId := 2
    pendingFrames := [{ before := some 0, after := FrameTree.node 1 none [] }] }

/-- A navigation context with one previous entry and one next entry. -/
def c5Ctx : NavigationContext :=
  { previous := [FrameTree.node 1 none []]
    next := [FrameTree.node 9 none []]
    current := some (FrameTree.node 2 none []) }

/-- A state with two pending root-level changes (pipelines 10 and 11) and a
current tree containing neither. -/
def c6State : ConstState :=
  { pipelines := [5, 10, 11]
    store := [(5, default), (10, default), (11, default)]
    nav := { previous := [], next := [], current := some (FrameTree.node 5 none []) }
    nextPipelineId := 12
    pendingFrames := [{ before := none, after := FrameTree.node 10 none [] },
                      { before := none, after := FrameTree.node 11 none [] }] }

/-- A root with two children in document order 1, 2. -/
def c7Tree : FrameTree :=
  FrameTree.node 0 none [FrameTree.node 1 (some 0) [], FrameTree.node 2 (some 0) []]

/-- Same shape as `c4State`: a pending change replacing the current root, so
a LoadUrl from pipeline 0 — `.js` or not — is silently dropped. -/
def c8State : ConstState :=
  { pipelines := [0, 1]
    store := [(0, { subpageId := none, url := some (urlA ['/']), navType := some NavigationType.load }),
              (1, { subpageId := none, url := some (urlA ['/', 'p']), navType := some NavigationType.load })]
    nav := { previous := [], next := [], current := some (FrameTree.node 0 none []) }
    nextPipelineId := 2
    pendingFrames := [{ before := some 0, after := FrameTree.node 1 none [] }] }

/-- A state fit for a LoadIframeUrl from pipeline 0 (in the current tree, in
the registry, with a recorded url). -/
def c8IframeState : ConstState :=
  { pipelines := [0]
    store := [(0, { subpageId := none, url := some (urlA ['/']), navType := some NavigationType.load })]
    nav := { previous := [], next := [], current := some (FrameTree.node 0 none []) }
    nextPipelineId := 1
    pendingFrames := [] }

/-- A state with three pending root-level changes (pipelines 10, 11, 12); a
RendererReady for 10 matches the head of the queue, a non-tail position. -/
def c9State : ConstState :=
  { pipelines := [5, 10, 11, 12]
    store := [(5, default), (10, default), (11, default), (12, default)]
    nav := { previous := [], next := [], current := some (FrameTree.node 5 none []) }
    nextPipelineId := 13
    pendingFrames := [{ before := none, after := FrameTree.node 10 none [] },
                      { before := none, after := FrameTree.node 11 none [] },
                      { before := none, after := FrameTree.node 12 none [] }] }

/-- Modelled from the spec: the inactive-resize broadcast the spec's wording
reduces to once restricted to what the code consults — the root pipeline of
every tree of `previous` and `next` whose root id differs from the current
root id (all of them when there is no current tree). -/
def resizeExpected (nc : NavigationContext) (sz : Nat) : List Event :=
  match nc.current with
  | some cur =>
    ((nc.previous ++ nc.next).filter (fun t => t.pid != cur.pid)).map
      (fun t => Event.resizeInactive t.pid sz)
  | none => (nc.previous ++ nc.next).map (fun t => Event.resizeInactive t.pid sz)

instance {ε α : Type} [DecidableEq ε] [DecidableEq α] : DecidableEq (Except ε α) := fun a b =>
  match a, b with
  | Except.ok x, Except.ok y => decidable_of_iff (x = y) (by simp)
  | Except.error e, Except.error f => decidable_of_iff (e = f) (by simp)
  | Except.ok _, Except.error _ => isFalse (by simp)
  | Except.error _, Except.ok _ => isFalse (by simp)

/-- The states the `c3Msgs` trace passes through, written out so that each
handler step can be checked from a literal state. -/
def c3St1 : ConstState :=
  { pipelines := [0]
    store := [(0, { subpageId := none, url := some (urlA ['/']), navType := some NavigationType.load })]
    nav := { previous := [], next := [], current := none }
    nextPipelineId := 1
    pendingFrames := [{ before := none, after := FrameTree.node 0 none [] }] }

def c3St2 : ConstState :=
  { c3St1 with
    nav := { previous := [], next := [], current := some (FrameTree.node 0 none []) }
    pendingFrames := [] }

def c3St3 : ConstState :=
  { c3St2 with
    pipelines := [0, 1]
    store := [(0, { subpageId := none, url := some (urlA ['/']), navType := some NavigationType.load }),
              (1, { subpageId := some 7, url := some (urlA ['/', 'c']), navType := none })]
    nav := { previous := [], next := [],
             current := some (FrameTree.node 0 none [FrameTree.node 1 (some 0) []]) }
    nextPipelineId := 2 }

def c3St4 : ConstState :=
  { c3St3 with
    pipelines := [0, 1, 2]
    store := c3St3.store ++
      [(2, { subpageId := some 7, url := some (urlA ['/', 'p', '2']), navType := some NavigationType.load })]
    nextPipelineId := 3
    pendingFrames := [{ before := some 1, after := FrameTree.node 2 (some 0) [] }] }

def c3St5 : ConstState :=
  { c3St4 with
    nav := { previous := [FrameTree.node 0 none [FrameTree.node 1 (some 0) []]]
             next := []
             current := some (FrameTree.node 0 none [FrameTree.node 2 (some 0) []]) }
    pendingFrames := [] }

def c3St6 : ConstState :=
  { c3St5 with
    store := [(0, { subpageId := none, url := some (urlA ['/']), navType := some NavigationType.navigate }),
              (1, { subpageId := some 7, url := some (urlA ['/', 'c']), navType := some NavigationType.navigate }),
              (2, { subpageId := some 7, url := some (urlA ['/', 'p', '2']), navType := some NavigationType.load })]
    nav := { previous := []
             next := [FrameTree.node 0 none [FrameTree.node 2 (some 0) []]]
             current := some (FrameTree.node 0 none [FrameTree.node 1 (some 0) []]) } }

def c3St7 : ConstState :=
  { c3St6 with
    pipelines := [0, 1, 2, 3]
    store := c3St6.store ++
      [(3, { subpageId := none, url := some (urlA ['/', 'p', '3']), navType := some NavigationType.load })]
    nextPipelineId := 4
    pendingFrames := [{ before := some 0, after := FrameTree.node 3 none [] }] }

def c3St8 : ConstState :=
  { c3St7 with
    pipelines := [1, 2, 3]
    nav := { previous := [FrameTree.node 0 none [FrameTree.node 1 (some 0) []]]
             next := []
             current := some (FrameTree.node 3 none []) }
    pendingFrames := [] }

theorem FrameTree.size_pos (t : FrameTree) : 0 < t.size := by
  cases t with
  | node p par ch => simp [FrameTree.size]

theorem FrameTree.sizeList_append (a b : List FrameTree) :
    FrameTree.sizeList (a ++ b) = FrameTree.sizeList a + FrameTree.sizeList b := by
  induction a with
  | nil => simp [FrameTree.sizeList]
  | cons t ts ih => simp [FrameTree.sizeList, ih]; omega

theorem FrameTree.sizeList_reverse (l : List FrameTree) :
    FrameTree.sizeList l.reverse = FrameTree.sizeList l := by
  induction l with
  | nil => rfl
  | cons t ts ih =>
    rw [List.reverse_cons, FrameTree.sizeList_append]
    simp [FrameTree.sizeList, ih]
    omega

theorem FrameTree.preorderRevList_append (a b : List FrameTree) :
    FrameTree.preorderRevList (a ++ b) =
      FrameTree.preorderRevList b ++ FrameTree.preorderRevList a := by
  induction a with
  | nil => simp [FrameTree.preorderRevList]
  | cons t ts ih => simp [FrameTree.preorderRevList, ih]

theorem iterFuel_eq (n : Nat) :
    ∀ l : List FrameTree, FrameTree.sizeList l ≤ n →
      iterFuel n l = FrameTree.preorderRevList l.reverse := by
  induction n with
  | zero =>
    intro l hl
    cases l with
    | nil => rfl
    | cons t ts =>
      exfalso
      have := FrameTree.size_pos t
      simp [FrameTree.sizeList] at hl
      omega
  | succ n ih =>
    intro l hl
    cases l with
    | nil => rfl
    | cons t ts =>
      cases t with
      | node p par ch =>
        have hsz : FrameTree.sizeList (ch.reverse ++ ts) ≤ n := by
          rw [FrameTree.sizeList_append, FrameTree.sizeList_reverse]
          simp [FrameTree.sizeList, FrameTree.size] at hl
          omega
        calc iterFuel (n + 1) (FrameTree.node p par ch :: ts)
            = FrameTree.node p par ch :: iterFuel n (ch.reverse ++ ts) := by
              simp [iterFuel, FrameTree.children]
          _ = FrameTree.node p par ch ::
                FrameTree.preorderRevList ((ch.reverse ++ ts).reverse) := by rw [ih _ hsz]
          _ = FrameTree.node p par ch ::
                (FrameTree.preorderRevList ch ++ FrameTree.preorderRevList ts.reverse) := by
              rw [List.reverse_append, List.reverse_reverse, FrameTree.preorderRevList_append]
          _ = FrameTree.preorderRevList ((FrameTree.node p par ch :: ts).reverse) := by
              rw [List.reverse_cons, FrameTree.preorderRevList_append]
              simp [FrameTree.preorderRevList, FrameTree.preorderRev]

theorem iterList_eq_preorderRev (t : FrameTree) : t.iterList = t.preorderRev := by
  have h := iterFuel_eq t.size [t] (by simp [FrameTree.sizeList])
  simpa [FrameTree.iterList, FrameTree.preorderRevList] using h

theorem preorderRev_perm_aux (n : Nat) :
    (∀ t : FrameTree, t.size ≤ n → List.Perm t.preorderRev t.preorderDoc) ∧
    (∀ l : List FrameTree, FrameTree.sizeList l ≤ n →
      List.Perm (FrameTree.preorderRevList l) (FrameTree.preorderDocList l)) := by
  induction n with
  | zero =>
    constructor
    · intro t ht
      exact absurd ht (by have := FrameTree.size_pos t; omega)
    · intro l hl
      cases l with
      | nil => exact List.Perm.refl _
      | cons t ts =>
        exfalso
        have := FrameTree.size_pos t
        simp [FrameTree.sizeList] at hl
        omega
  | succ n ih =>
    have htree : ∀ t : FrameTree, t.size ≤ n + 1 → List.Perm t.preorderRev t.preorderDoc := by
      intro t ht
      cases t with
      | node p par ch =>
        have hch : FrameTree.sizeList ch ≤ n := by
          simp [FrameTree.size] at ht
          omega
        exact (ih.2 ch hch).cons _
    constructor
    · exact htree
    · intro l hl
      cases l with
      | nil => exact List.Perm.refl _
      | cons t ts =>
        have hts : FrameTree.sizeList ts ≤ n := by
          have := FrameTree.size_pos t
          simp [FrameTree.sizeList] at hl
          omega
        have ht : t.size ≤ n + 1 := by
          simp [FrameTree.sizeList] at hl
          omega
        have h1 : List.Perm (FrameTree.preorderRevList ts ++ t.preorderRev)
            (t.preorderRev ++ FrameTree.preorderRevList ts) := List.perm_append_comm
        have h2 : List.Perm (t.preorderRev ++ FrameTree.preorderRevList ts)
            (t.preorderDoc ++ FrameTree.preorderDocList ts) :=
          (htree t ht).append (ih.2 ts hts)
        exact h1.trans h2

/-- C7 counterexample: on the two-child tree `c7Tree` the iterator yields
the root, then child 2, then child 1 — not the document-order pre-order the
claim states. -/
theorem c7_iter_not_document_order :
    ¬ (FrameTree.iterList c7Tree = FrameTree.preorderDoc c7Tree) := by decide

/-- C7 (amended): `iter()` yields each node of the tree exactly once, in
depth-first pre-order, but with each node's children visited in reverse of
the order they appear in that node's children sequence (the stack iterator
pushes children in order and pops from the end). -/
theorem c7_iter_preorder_reversed_children (t : FrameTree) :
    t.iterList = t.preorderRev ∧ List.Perm t.iterList t.preorderDoc := by
  constructor
  · exact iterList_eq_preorderRev t
  · rw [iterList_eq_preorderRev t]
    exact (preorderRev_perm_aux t.size).1 t (Nat.le_refl _)

/-- C1: committing the Load of pipeline 3 on `c1State` evicts the forward
tree (root 0, child 2). Pipeline 2 occurs in the evicted tree and nowhere
else in the navigation context after the commit, yet no `exit(2)` is sent
and 2 stays registered; instead the code sends `exit(0)` and unregisters
pipeline 0, the evicted tree's root, which is still present in the previous
stack — the eviction loop tests `frame.pipeline` but acts on
`frame_tree.pipeline`. -/
theorem c1_eviction_exits_wrong_pipeline :
    (grantPaintPermission c1State c1Tree).2 = setIdsEvents c1Tree ++ [Event.exit 0] ∧
    (grantPaintPermission c1State c1Tree).1.pipelines = [1, 2, 3] ∧
    navContains (grantPaintPermission c1State c1Tree).1.nav 0 = true ∧
    navContains (grantPaintPermission c1State c1Tree).1.nav 2 = false := by decide

/-- C3: running bootstrap, iframe load, sub-frame navigation, commit, back,
new load, commit (`c3Msgs`) reaches a Load-committing handler after which
pipeline 0 is reachable from the navigation context but missing from the
registry, while pipeline 2 is registered but reachable from neither the
navigation context nor the pending queue — both halves of the stated
invariant fail. -/
theorem c3_registry_invariant_fails :
    (match runMsgs initialState c3Msgs with
     | Except.ok st =>
       (reachablePids st).contains 0 && !(st.pipelines.contains 0) &&
       st.pipelines.contains 2 && !((reachablePids st).contains 2)
     | Except.error _ => false) = true := by
  have e1 : handleRequest initialState (Msg.initLoadUrl (urlA ['/'])) =
      Except.ok (c3St1, [Event.load 0 (urlA ['/']) (some NavigationType.load)], true) := by decide
  have e2 : handleRequest c3St1 (Msg.rendererReady 0) =
      Except.ok (c3St2, [Event.setIds (FrameTree.node 0 none []), Event.grantPaint 0], true) := by
    decide
  have e3 : handleRequest c3St2 (Msg.loadIframeUrl (urlA ['/', 'c']) 0 7) =
      Except.ok (c3St3, [Event.load 1 (urlA ['/', 'c']) none], true) := by decide
  have e4 : handleRequest c3St3 (Msg.loadUrl 1 (urlA ['/', 'p', '2'])) =
      Except.ok (c3St4, [Event.load 2 (urlA ['/', 'p', '2']) (some NavigationType.load)], true) := by
    decide
  have e5 : handleRequest c3St4 (Msg.rendererReady 2) =
      Except.ok (c3St5,
        [Event.revokePaint 1,
         Event.setIds (FrameTree.node 0 none [FrameTree.node 2 (some 0) []]),
         Event.grantPaint 0, Event.grantPaint 2], true) := by decide
  have e6 : handleRequest c3St5 (Msg.navigateMsg Direction.back) =
      Except.ok (c3St6,
        [Event.revokePaint 0, Event.revokePaint 2,
         Event.reload 0 (some NavigationType.navigate),
         Event.reload 1 (some NavigationType.navigate),
         Event.setIds (FrameTree.node 0 none [FrameTree.node 1 (some 0) []]),
         Event.grantPaint 0, Event.grantPaint 1], true) := by decide
  have e7 : handleRequest c3St6 (Msg.loadUrl 0 (urlA ['/', 'p', '3'])) =
      Except.ok (c3St7, [Event.load 3 (urlA ['/', 'p', '3']) (some NavigationType.load)], true) := by
    decide
  have e8 : handleRequest c3St7 (Msg.rendererReady 3) =
      Except.ok (c3St8,
        [Event.revokePaint 0, Event.revokePaint 1,
         Event.setIds (FrameTree.node 3 none []),
         Event.grantPaint 3, Event.exit 0], true) := by decide
  simp only [c3Msgs, runMsgs, e1, e2, e3, e4, e5, e6, e7, e8]
  decide

/-- C2 counterexample: on `c2State` pipeline 1 occurs in a previous-stack
tree and is not contained in the current frame tree, yet the handler sends
`ResizeInactive` only to pipeline 0 — the claim's "every pipeline occurring
in any frame tree of the previous stack or the next stack" is false for
non-root pipelines. -/
theorem c2_inner_pipeline_not_resized :
    handleResized c2State 5 = Except.ok (c2State, [Event.resizeInactive 0 5]) ∧
    FrameTree.listContainsB c2State.nav.previous 1 = true ∧
    (FrameTree.node 2 none []).containsB 1 = false := by decide

/-- C2 (amended): for every `ResizedWindowBroadcast(new_size)` event, a
`ResizeInactive(new_size)` message is sent to the script worker of the root
pipeline of every frame tree of the previous or next stack whose root
pipeline id differs from the current tree's root pipeline id (of every such
root when there is no current tree), and to no other pipeline. -/
theorem c2_resize_roots_only (st : ConstState) (sz : Nat) :
    handleRequest st (Msg.resizedWindowBroadcast sz) =
      Except.ok (st, resizeExpected st.nav sz, true) := by
  unfold handleRequest handleResized resizeExpected
  cases hc : st.nav.current with
  | none => simp [Except.map, List.map_append]
  | some cur => simp [Except.map, List.filter_append, List.map_append]

/-- C8 counterexample: `c8State` has a pending change covering pipeline 0,
so the LoadUrl of a `.js` url from pipeline 0 is dropped by the
supersession rule: the handler returns with no state change and no events —
in particular no `Execute` message is sent, contradicting the claim for
LoadUrl events. -/
theorem c8_superseded_js_not_executed :
    endsWithDotJs jsUrl.path = true ∧
    handleRequest c8State (Msg.loadUrl 0 jsUrl) = Except.ok (c8State, [], true) := by decide

theorem checkPending_abort (cur sf : FrameTree) (sid : Nat) :
    ∀ l : List FrameChange,
      (∀ fc ∈ l, ∃ oid cf, fc.before = some oid ∧ cur.find? oid = some cf) →
      (∃ fc ∈ l, ∃ oid cf, fc.before = some oid ∧ cur.find? oid = some cf ∧
        (cf.containsB sid = true ∨ sf.containsB oid = true)) →
      checkPending cur sf sid l = Except.ok true := by
  intro l
  induction l with
  | nil =>
    intro _ hex
    obtain ⟨fc, hfc, _⟩ := hex
    exact absurd hfc (List.not_mem_nil fc)
  | cons fc rest ih =>
    intro hwf hex
    obtain ⟨oid, cf, hb, hf⟩ := hwf fc (List.mem_cons_self fc rest)
    unfold checkPending
    rw [hb]
    simp only [hf]
    by_cases hcond : (cf.containsB sid || sf.containsB oid) = true
    · rw [if_pos hcond]
    · rw [if_neg hcond]
      apply ih
      · intro fc' hfc'
        exact hwf fc' (List.mem_cons_of_mem fc hfc')
      · obtain ⟨fc', hfc', oid', cf', hb', hf', hcond'⟩ := hex
        rcases List.mem_cons.mp hfc' with heq | hmem
        · exfalso
          subst heq
          rw [hb] at hb'
          injection hb' with hoid
          subst hoid
          rw [hf] at hf'
          injection hf' with hcf
          subst hcf
          rcases hcond' with h | h
          · simp [h] at hcond
          · simp [h] at hcond
        · exact ⟨fc', hmem, oid', cf', hb', hf', hcond'⟩

/-- C4: a LoadUrl whose source is in the current frame tree is silently
dropped whenever some pending frame change with `before = Some(old_id)`
has its current-tree subtree containing the source, or the source's subtree
containing `old_id`: the handler returns the state unchanged — no pipeline
id allocated, nothing created, registered or enqueued — and sends no
messages. (The hypotheses record what the code's `expect`s assume of every
pending change: a `Some` before-id that is in the current tree.) -/
theorem c4_superseded_loadUrl_is_noop (st : ConstState) (sourceId : Nat) (url : Url)
    (cur sf : FrameTree)
    (hcur : st.nav.current = some cur)
    (hsf : cur.find? sourceId = some sf)
    (hwf : ∀ fc ∈ st.pendingFrames, ∃ oid cf, fc.before = some oid ∧ cur.find? oid = some cf)
    (hex : ∃ fc ∈ st.pendingFrames, ∃ oid cf, fc.before = some oid ∧ cur.find? oid = some cf ∧
      (cf.containsB sourceId = true ∨ sf.containsB oid = true)) :
    handleRequest st (Msg.loadUrl sourceId url) = Except.ok (st, [], true) := by
  have hchk := checkPending_abort cur sf sourceId st.pendingFrames hwf hex
  show Except.map (fun r => (r.1, r.2, true)) (handleLoadUrl st sourceId url) =
    Except.ok (st, [], true)
  unfold handleLoadUrl
  rw [hcur]
  simp only [hsf, hchk]
  rfl

/-- Witness for C4 at `c4State`: the pending change replaces the current
root 0, whose subtree contains the source 0, so the LoadUrl is dropped. -/
theorem c4_witness :
    handleRequest c4State (Msg.loadUrl 0 (urlA ['/', 'x'])) = Except.ok (c4State, [], true) := by
  apply c4_superseded_loadUrl_is_noop c4State 0 (urlA ['/', 'x'])
    (FrameTree.node 0 none []) (FrameTree.node 0 none []) rfl rfl
  · intro fc hfc
    have : fc = { before := some 0, after := FrameTree.node 1 none [] } := by
      simpa [c4State] using hfc
    subst this
    exact ⟨0, FrameTree.node 0 none [], rfl, rfl⟩
  · refine ⟨{ before := some 0, after := FrameTree.node 1 none [] }, ?_,
      0, FrameTree.node 0 none [], rfl, rfl, Or.inl (by decide)⟩
    simp [c4State]

theorem popLast_concat {α : Type} (l : List α) (a : α) : popLast (l ++ [a]) = some (l, a) := by
  induction l with
  | nil => rfl
  | cons x xs ih =>
    cases xs with
    | nil => simp [popLast] at ih ⊢
    | cons y ys => simp [popLast] at ih ⊢; rw [ih]

/-- C5: from a context with a current tree and a non-empty previous stack,
`back()` followed by `forward()` (with no intervening load) succeeds and
restores the entire navigation context: the same current tree `t` and the
prior contents of both stacks. -/
theorem c5_back_forward_roundtrip (nc : NavigationContext) (t : FrameTree)
    (hc : nc.current = some t) (hp : nc.previous ≠ []) :
    ∃ p nc1, navBack nc = some (p, nc1) ∧ navForward nc1 = some (t, nc) := by
  obtain ⟨prev, nxt, curr⟩ := nc
  simp only at hc hp
  rcases prev.eq_nil_or_concat with hnil | ⟨ps, p, hps⟩
  · exact absurd hnil hp
  · subst hps
    subst hc
    refine ⟨p, { previous := ps, next := nxt ++ [t], current := some p }, ?_, ?_⟩
    · simp [navBack, popLast_concat, List.concat_eq_append]
    · simp [navForward, popLast_concat, List.concat_eq_append]

/-- Witness for C5 at `c5Ctx`. -/
theorem c5_witness :
    ∃ p nc1, navBack c5Ctx = some (p, nc1) ∧
      navForward nc1 = some (FrameTree.node 2 none [], c5Ctx) :=
  c5_back_forward_roundtrip c5Ctx (FrameTree.node 2 none []) rfl (by decide)

theorem rposition_lt {α : Type} (p : α → Bool) :
    ∀ (l : List α) (i : Nat), rposition p l = some i → i < l.length := by
  intro l
  induction l with
  | nil => intro i h; simp [rposition] at h
  | cons a as ih =>
    intro i h
    unfold rposition at h
    cases hr : rposition p as with
    | some j =>
      rw [hr] at h
      injection h with h1
      subst h1
      have := ih j hr
      simp
      omega
    | none =>
      rw [hr] at h
      by_cases hp : p a = true
      · rw [if_pos hp] at h
        injection h with h1
        subst h1
        simp
      · rw [if_neg hp] at h
        exact absurd h (by simp)

theorem rposition_get {α : Type} (p : α → Bool) :
    ∀ (l : List α) (i : Nat), rposition p l = some i →
      ∀ hi : i < l.length, p (l.get ⟨i, hi⟩) = true := by
  intro l
  induction l with
  | nil => intro i h; simp [rposition] at h
  | cons a as ih =>
    intro i h hi
    unfold rposition at h
    cases hr : rposition p as with
    | some j =>
      rw [hr] at h
      injection h with h1
      subst h1
      exact ih j hr (by simpa using hi)
    | none =>
      rw [hr] at h
      by_cases hp : p a = true
      · rw [if_pos hp] at h
        injection h with h1
        subst h1
        simpa using hp
      · rw [if_neg hp] at h
        exact absurd h (by simp)

theorem rposition_none {α : Type} (p : α → Bool) :
    ∀ l : List α, rposition p l = none → ∀ x ∈ l, p x = false := by
  intro l
  induction l with
  | nil => intro _ x hx; exact absurd hx (List.not_mem_nil x)
  | cons a as ih =>
    intro h x hx
    unfold rposition at h
    cases hr : rposition p as with
    | some j => rw [hr] at h; exact absurd h (by simp)
    | none =>
      rw [hr] at h
      by_cases hp : p a = true
      · rw [if_pos hp] at h; exact absurd h (by simp)
      · rw [if_neg hp] at h
        rcases List.mem_cons.mp hx with heq | hmem
        · subst heq; simpa using hp
        · exact ih hr x hmem

theorem rposition_last {α : Type} (p : α → Bool) :
    ∀ (l : List α) (i : Nat), rposition p l = some i →
      ∀ j (hj : j < l.length), i < j → p (l.get ⟨j, hj⟩) = false := by
  intro l
  induction l with
  | nil => intro i h; simp [rposition] at h
  | cons a as ih =>
    intro i h j hj hij
    unfold rposition at h
    cases hr : rposition p as with
    | some k =>
      rw [hr] at h
      injection h with h1
      subst h1
      cases j with
      | zero => omega
      | succ j' =>
        have hj' : j' < as.length := by simpa using hj
        exact ih k hr j' hj' (by omega)
    | none =>
      rw [hr] at h
      by_cases hp : p a = true
      · rw [if_pos hp] at h
        injection h with h1
        subst h1
        cases j with
        | zero => omega
        | succ j' =>
          have hj' : j' < as.length := by simpa using hj
          exact rposition_none p as hr _ (as.get_mem j' hj')
      · rw [if_neg hp] at h
        exact absurd h (by simp)

theorem grantPaintPermission_pendingFrames (st : ConstState) (t : FrameTree) :
    (grantPaintPermission st t).1.pendingFrames = st.pendingFrames := by
  unfold grantPaintPermission
  split <;> rfl

theorem processFrameChange_pendingFrames (st : ConstState) (fc : FrameChange)
    (r : ConstState × List Event) (h : processFrameChange st fc = Except.ok r) :
    r.1.pendingFrames = st.pendingFrames := by
  unfold processFrameChange at h
  repeat' split at h
  all_goals
    first
      | (injection h with h1
         subst h1
         exact grantPaintPermission_pendingFrames st _)
      | exact Except.noConfusion h

theorem rendererReady_to_pending (st : ConstState) (pid : Nat)
    (hnc : ∀ c, st.nav.current = some c → c.containsB pid = false) :
    handleRendererReady st pid = handlePendingReady st pid := by
  unfold handleRendererReady
  cases hc : st.nav.current with
  | none => rfl
  | some cur => simp [hnc cur hc]

theorem handlePendingReady_none (st : ConstState) (pid : Nat)
    (h : rposition (matchesPid pid) st.pendingFrames = none) :
    handlePendingReady st pid = Except.ok (st, []) := by
  unfold handlePendingReady
  rw [h]

theorem handlePendingReady_some (st : ConstState) (pid idx : Nat)
    (h : rposition (matchesPid pid) st.pendingFrames = some idx) :
    handlePendingReady st pid =
      processFrameChange { st with pendingFrames := swapRemove st.pendingFrames idx }
        (st.pendingFrames.getD idx default) := by
  unfold handlePendingReady
  rw [h]

/-- C6: on RendererReady for a pipeline id not contained in the current
frame tree: if no pending change's new pipeline matches the id, the handler
returns the state unchanged and sends no messages; if some change matches,
the `rposition` index is a match, every later queue position is not a match
(the most recently enqueued match wins), and the handler is exactly the
processing of that one change on the queue with it `swap_remove`d — one
change per event. -/
theorem c6_rendererReady_pending_selection (st : ConstState) (pid : Nat)
    (hnc : ∀ c, st.nav.current = some c → c.containsB pid = false) :
    (rposition (matchesPid pid) st.pendingFrames = none →
      handleRequest st (Msg.rendererReady pid) = Except.ok (st, [], true)) ∧
    (∀ idx, rposition (matchesPid pid) st.pendingFrames = some idx →
      ∃ h : idx < st.pendingFrames.length,
        matchesPid pid (st.pendingFrames.get ⟨idx, h⟩) = true ∧
        (∀ j (hj : j < st.pendingFrames.length), idx < j →
          matchesPid pid (st.pendingFrames.get ⟨j, hj⟩) = false) ∧
        handleRequest st (Msg.rendererReady pid) =
          Except.map (fun r => (r.1, r.2, true))
            (processFrameChange { st with pendingFrames := swapRemove st.pendingFrames idx }
              (st.pendingFrames.get ⟨idx, h⟩))) := by
  have hred : handleRequest st (Msg.rendererReady pid) =
      Except.map (fun r => (r.1, r.2, true)) (handlePendingReady st pid) := by
    show Except.map (fun r => (r.1, r.2, true)) (handleRendererReady st pid) = _
    rw [rendererReady_to_pending st pid hnc]
  constructor
  · intro hnone
    rw [hred, handlePendingReady_none st pid hnone]
    rfl
  · intro idx hidx
    have hlt := rposition_lt (matchesPid pid) st.pendingFrames idx hidx
    refine ⟨hlt, rposition_get (matchesPid pid) st.pendingFrames idx hidx hlt,
      rposition_last (matchesPid pid) st.pendingFrames idx hidx, ?_⟩
    rw [hred, handlePendingReady_some st pid idx hidx]
    have hgd : st.pendingFrames.getD idx default = st.pendingFrames.get ⟨idx, hlt⟩ := by
      rw [List.getD_eq_getElem _ _ hlt, List.get_eq_getElem]
    rw [hgd]

/-- Witness for C6 at `c6State`: RendererReady for pipeline 11 selects the
pending change at index 1 and the handler is its processing on the
`swap_remove`d queue. -/
theorem c6_witness :
    handleRequest c6State (Msg.rendererReady 11) =
      Except.map (fun r => (r.1, r.2, true))
        (processFrameChange { c6State with pendingFrames := swapRemove c6State.pendingFrames 1 }
          (c6State.pendingFrames.get ⟨1, by decide⟩)) := by
  have hnc : ∀ c, c6State.nav.current = some c → c.containsB 11 = false := by
    intro c hc
    have hc2 : some (FrameTree.node 5 none []) = some c := hc
    injection hc2 with h5
    subst h5
    decide
  obtain ⟨hl, _, _, heq⟩ := (c6_rendererReady_pending_selection c6State 11 hnc).2 1 (by decide)
  exact heq

/-- C9: when RendererReady consumes the pending change at (rposition) index
`idx`, the new pending queue is `swap_remove st.pendingFrames idx`; and
whenever `idx` is not the last position, the element now at position `idx`
is the previous last element of the queue — enqueue order is not preserved,
and later rposition selections run over this perturbed order. -/
theorem c9_swapRemove_moves_last (st : ConstState) (pid idx : Nat)
    (st2 : ConstState) (evs : List Event) (b : Bool)
    (hnc : ∀ c, st.nav.current = some c → c.containsB pid = false)
    (hidx : rposition (matchesPid pid) st.pendingFrames = some idx)
    (hrun : handleRequest st (Msg.rendererReady pid) = Except.ok (st2, evs, b)) :
    st2.pendingFrames = swapRemove st.pendingFrames idx ∧
    (idx + 1 < st.pendingFrames.length →
      ∃ h2 : idx < (swapRemove st.pendingFrames idx).length,
        some ((swapRemove st.pendingFrames idx).get ⟨idx, h2⟩) = st.pendingFrames.getLast?) := by
  constructor
  · have hred : handleRequest st (Msg.rendererReady pid) =
        Except.map (fun r => (r.1, r.2, true)) (handlePendingReady st pid) := by
      show Except.map (fun r => (r.1, r.2, true)) (handleRendererReady st pid) = _
      rw [rendererReady_to_pending st pid hnc]
    rw [hred, handlePendingReady_some st pid idx hidx] at hrun
    cases hp : processFrameChange { st with pendingFrames := swapRemove st.pendingFrames idx }
        (st.pendingFrames.getD idx default) with
    | error e => rw [hp] at hrun; exact Except.noConfusion hrun
    | ok r =>
      rw [hp] at hrun
      injection hrun with h1
      have hpend := processFrameChange_pendingFrames _ _ _ hp
      have hst : r.1 = st2 := congrArg Prod.fst h1
      rw [← hst]
      simpa using hpend
  · intro hlt
    have hne : st.pendingFrames ≠ [] := by
      intro h0
      rw [h0] at hlt
      simp at hlt
    have hs : (st.pendingFrames.getLast?).isSome = true := List.getLast?_isSome.mpr hne
    obtain ⟨x, hx⟩ := Option.isSome_iff_exists.mp hs
    have hsw : swapRemove st.pendingFrames idx = (st.pendingFrames.set idx x).dropLast := by
      unfold swapRemove
      rw [hx]
    rw [hsw, hx]
    have hlen : ((st.pendingFrames.set idx x).dropLast).length = st.pendingFrames.length - 1 := by
      simp
    have h2 : idx < ((st.pendingFrames.set idx x).dropLast).length := by omega
    refine ⟨h2, ?_⟩
    have hg : ((st.pendingFrames.set idx x).dropLast).get ⟨idx, h2⟩ = x := by
      rw [List.get_eq_getElem, List.getElem_dropLast, List.getElem_set_self]
    rw [hg]

/-- Witness for C9 at `c9State`: consuming the match at index 0 of the
three-entry queue yields the queue with the former last entry moved to the
front — `[change 12, change 11]`, not the order-preserving `[change 11,
change 12]`. -/
theorem c9_witness :
    ({ c9State with
       pendingFrames := [{ before := none, after := FrameTree.node 12 none [] },
                         { before := none, after := FrameTree.node 11 none [] }] } :
        ConstState).pendingFrames = swapRemove c9State.pendingFrames 0 ∧
    ∃ h2 : 0 < (swapRemove c9State.pendingFrames 0).length,
      some ((swapRemove c9State.pendingFrames 0).get ⟨0, h2⟩) = c9State.pendingFrames.getLast? := by
  have hnc : ∀ c, c9State.nav.current = some c → c.containsB 10 = false := by
    intro c hc
    have hc2 : some (FrameTree.node 5 none []) = some c := hc
    injection hc2 with h5
    subst h5
    decide
  have h := c9_swapRemove_moves_last c9State 10 0
    ({ c9State with
       pendingFrames := [{ before := none, after := FrameTree.node 12 none [] },
                         { before := none, after := FrameTree.node 11 none [] }] })
    [Event.setIds (FrameTree.node 10 none []), Event.grantPaint 10] true
    hnc (by decide) (by decide)
  exact ⟨h.1, h.2 (by decide)⟩

/-- C8 (amended): for every InitLoadUrl, LoadUrl and LoadIframeUrl event
whose url path ends in `.js` — provided the handler does not bail out
first: for LoadUrl, that the event is not dropped by the supersession rule;
for LoadIframeUrl, that its registry and store lookups succeed — the
coordinator sends one `Execute` message to the new pipeline's script worker
and nothing else (in particular `pipeline.load` is never called), and
enqueues no FrameChange: the pending queue is unchanged (for LoadIframeUrl,
unchanged in length — existing entries only gain iframe children). -/
theorem c8_js_loads_are_script_only (st : ConstState) (url : Url) (sourceId subpage : Nat)
    (hjs : endsWithDotJs url.path = true) :
    (∃ st2, handleRequest st (Msg.initLoadUrl url) =
        Except.ok (st2, [Event.execute st.nextPipelineId url], true) ∧
      st2.pendingFrames = st.pendingFrames) ∧
    ((navFindAny st.nav sourceId ||
        st.pendingFrames.any (fun fc => (fc.after.find? sourceId).isSome)) = true →
      st.pipelines.contains sourceId = true →
      ∀ pd srcUrl, lookupStore st.store sourceId = some pd → pd.url = some srcUrl →
      ∃ st2, handleRequest st (Msg.loadIframeUrl url sourceId subpage) =
          Except.ok (st2, [Event.execute st.nextPipelineId url], true) ∧
        st2.pendingFrames.length = st.pendingFrames.length) ∧
    (∀ cur sf, st.nav.current = some cur → cur.find? sourceId = some sf →
      checkPending cur sf sourceId st.pendingFrames = Except.ok false →
      ∀ pd, lookupStore st.store sf.pid = some pd →
      ∃ st2, handleRequest st (Msg.loadUrl sourceId url) =
          Except.ok (st2, [Event.execute st.nextPipelineId url], true) ∧
        st2.pendingFrames = st.pendingFrames) := by
  refine ⟨?_, ?_, ?_⟩
  · refine ⟨{ st with
        nextPipelineId := st.nextPipelineId + 1
        store := insertStore st.store st.nextPipelineId
          { subpageId := none, url := none, navType := none }
        pipelines := registryInsert st.pipelines st.nextPipelineId }, ?_, rfl⟩
    show Except.map (fun r => (r.1, r.2, true)) (handleInitLoadUrl st url) = _
    unfold handleInitLoadUrl
    rw [hjs]
    rfl
  · intro hfound hreg pd srcUrl hpd hurl
    refine ⟨{ st with
        nextPipelineId := st.nextPipelineId + 1
        store := insertStore st.store st.nextPipelineId
          { subpageId := some subpage, url := none, navType := none }
        nav := navAddChild st.nav sourceId
          (FrameTree.node st.nextPipelineId (some sourceId) [])
        pendingFrames := st.pendingFrames.map
          (fun fc => { fc with after :=
            (fc.after.addChild? sourceId
              (FrameTree.node st.nextPipelineId (some sourceId) [])).getD fc.after })
        pipelines := registryInsert st.pipelines st.nextPipelineId }, ?_, by simp⟩
    show Except.map (fun r => (r.1, r.2, true)) (handleLoadIframeUrl st url sourceId subpage) = _
    unfold handleLoadIframeUrl
    rw [hfound, hreg]
    simp only [hpd, hurl, hjs, Bool.not_true, Bool.false_eq_true, if_false]
    rfl
  · intro cur sf hcur hsf hchk pd hpd
    refine ⟨{ st with
        nextPipelineId := st.nextPipelineId + 1
        store := insertStore st.store st.nextPipelineId
          { subpageId := pd.subpageId, url := none, navType := none }
        pipelines := registryInsert st.pipelines st.nextPipelineId }, ?_, rfl⟩
    show Except.map (fun r => (r.1, r.2, true)) (handleLoadUrl st sourceId url) = _
    unfold handleLoadUrl
    rw [hcur]
    simp only [hsf, hchk, hpd, hjs]
    rfl

/-- Witness for C8: the three `.js` handlers on concrete states —
InitLoadUrl on the initial state, LoadIframeUrl on `c8IframeState`, and a
non-superseded LoadUrl on `c8IframeState`. -/
theorem c8_witness :
    (∃ st2, handleRequest initialState (Msg.initLoadUrl jsUrl) =
        Except.ok (st2, [Event.execute 0 jsUrl], true) ∧
      st2.pendingFrames = initialState.pendingFrames) ∧
    (∃ st2, handleRequest c8IframeState (Msg.loadIframeUrl jsUrl 0 7) =
        Except.ok (st2, [Event.execute 1 jsUrl], true) ∧
      st2.pendingFrames.length = c8IframeState.pendingFrames.length) ∧
    (∃ st2, handleRequest c8IframeState (Msg.loadUrl 0 jsUrl) =
        Except.ok (st2, [Event.execute 1 jsUrl], true) ∧
      st2.pendingFrames = c8IframeState.pendingFrames) := by
  refine ⟨(c8_js_loads_are_script_only initialState jsUrl 0 7 (by decide)).1,
    (c8_js_loads_are_script_only c8IframeState jsUrl 0 7 (by decide)).2.1 (by decide) (by decide)
      { subpageId := none, url := some (urlA ['/']), navType := some NavigationType.load }
      (urlA ['/']) (by decide) (by decide),
    (c8_js_loads_are_script_only c8IframeState jsUrl 0 7 (by decide)).2.2
      (FrameTree.node 0 none []) (FrameTree.node 0 none []) rfl rfl (by decide)
      { subpageId := none, url := some (urlA ['/']), navType := some NavigationType.load }
      (by decide)⟩

theorem replaceChild_not_contained_aux (n : Nat) :
    (∀ t : FrameTree, t.size ≤ n → ∀ i nc, t.containsB i = false →
      t.replaceChild i nc = (t, Sum.inr nc)) ∧
    (∀ l : List FrameTree, FrameTree.sizeList l ≤ n → ∀ i nc,
      FrameTree.listContainsB l i = false →
      FrameTree.replaceChildList l i nc = (l, Sum.inr nc)) := by
  induction n with
  | zero =>
    constructor
    · intro t ht
      exact absurd ht (by have := FrameTree.size_pos t; omega)
    · intro l hl i nc h
      cases l with
      | nil => rfl
      | cons t ts =>
        exfalso
        have := FrameTree.size_pos t
        simp [FrameTree.sizeList] at hl
        omega
  | succ n ih =>
    have htree : ∀ t : FrameTree, t.size ≤ n + 1 → ∀ i nc, t.containsB i = false →
        t.replaceChild i nc = (t, Sum.inr nc) := by
      intro t ht i nc h
      cases t with
      | node p par ch =>
        have hch : FrameTree.sizeList ch ≤ n := by
          have ht' : 1 + FrameTree.sizeList ch ≤ n + 1 := ht
          omega
        have h' : (p == i || FrameTree.listContainsB ch i) = false := h
        have hchc := (Bool.or_eq_false_iff.mp h').2
        have hrec := ih.2 ch hch i nc hchc
        unfold FrameTree.replaceChild
        rw [hrec]
    refine ⟨htree, ?_⟩
    intro l hl i nc h
    cases l with
    | nil => rfl
    | cons c cs =>
      have h' : (c.containsB i || FrameTree.listContainsB cs i) = false := h
      have hcb := Bool.or_eq_false_iff.mp h'
      have hl' : c.size + FrameTree.sizeList cs ≤ n + 1 := hl
      have hcpos := FrameTree.size_pos c
      have hc := htree c (by omega) i nc hcb.1
      have hcs := ih.2 cs (by omega) i nc hcb.2
      have hcpid : (c.pid == i) = false := by
        cases c with
        | node p par ch =>
          have hpp : (p == i || FrameTree.listContainsB ch i) = false := hcb.1
          exact (Bool.or_eq_false_iff.mp hpp).1
      unfold FrameTree.replaceChildList
      rw [hcpid]
      simp only [Bool.false_eq_true, if_false, hc, hcs]

/-- C10: `replace_child(id, new_child)` never replaces the node it is
invoked on: on a tree whose own pipeline id is `id` but none of whose
proper descendants has pipeline id `id`, the tree is returned unchanged
together with `Right(new_child)` (`Sum.inr`). -/
theorem c10_replaceChild_never_replaces_root (t nc : FrameTree) (i : Nat)
    (hroot : t.pid = i)
    (hdesc : FrameTree.listContainsB t.children i = false) :
    t.replaceChild i nc = (t, Sum.inr nc) := by
  cases t with
  | node p par ch =>
    have h := (replaceChild_not_contained_aux (FrameTree.sizeList ch)).2 ch
      (Nat.le_refl _) i nc hdesc
    unfold FrameTree.replaceChild
    rw [h]

/-- Witness for C10: the root's id 5 matches, the only descendant has id 3,
and `replace_child` leaves the tree unchanged and returns the replacement. -/
theorem c10_witness :
    (FrameTree.node 5 none [FrameTree.node 3 (some 5) []]).replaceChild 5
        (FrameTree.node 8 none []) =
      (FrameTree.node 5 none [FrameTree.node 3 (some 5) []],
        Sum.inr (FrameTree.node 8 none [])) :=
  c10_replaceChild_never_replaces_root _ _ 5 rfl (by decide)
